import Mathlib

/-!
# Verification of the KeepNote notebook core (`keepnote/notebook.py`)

A shallow embedding of the node-tree / persistence engine of the KeepNote
notebook data layer, together with theorems settling the specification
claims about it.

Conventions used throughout:
* Python strings are modelled as `String` / `List Char`.
* Python `dict` objects read through `get`/`[]` are modelled as functions
  `String → Option PyVal`; dicts whose iteration order matters (a node's
  attribute dict being serialized) are modelled as association lists.
* Machine-external effects (the OS clock, `os.rename` success/failure,
  the contents of a directory listing) are explicit parameters.
* Fallible operations return `Except` (the raised `NoteBookError`) paired
  with the post-call state, so that the state after a *failed* call is
  observable.
* Unbounded `while True` search loops are given explicit fuel and return
  `Option`; any fuel larger than the number of existing directory entries
  makes the search succeed.
-/

namespace KeepNote

/-! ## Constants (from the top of `notebook.py`) -/

def NOTEBOOK_FORMAT_VERSION : Int := 2

def TRASH_NAME : String := "Trash"

def DEFAULT_FONT : String := "Sans 10"

/-! ## Python values

A single value type covering every Python value stored in a node's
attribute dict: `None`, strings, ints and bools. -/

inductive PyVal where
  | pynone
  | pystr (s : String)
  | pyint (i : Int)
  | pybool (b : Bool)
deriving DecidableEq, Repr

/-! ## Filename policy (`get_valid_filename` and friends) -/

/-- `REGEX_SLASHES = re.compile(r"[/\\]")`: the characters replaced by `-`. -/
def isSlashChar (c : Char) : Bool := c = '/' || c = '\\'

/-- The character class of `REGEX_BAD_CHARS` (`[?'&<>|` + backquote + `:;]`);
the apostrophe and the backquote are written by code point. -/
def isBadChar (c : Char) : Bool :=
  c = '?' || c = Char.ofNat 39 || c = '&' || c = '<' || c = '>' ||
  c = '|' || c = Char.ofNat 96 || c = ':' || c = ';'

/-- Python `str.strip(chars)`: remove leading and trailing characters drawn
from `strip`. -/
def pyStripChars (strip : List Char) (cs : List Char) : List Char :=
  ((cs.dropWhile (fun c => strip.contains c)).reverse.dropWhile
    (fun c => strip.contains c)).reverse

/-- `get_valid_filename(filename, default="folder")`: strip slashes (to `-`),
remove the blocked punctuation, turn tabs into spaces, strip outer
space/tab/dot, drop a single leading `__`, fall back to `dflt` when empty,
then lower-case. -/
def get_valid_filename (filename : String) (dflt : String) : String :=
  let cs := filename.data.map (fun c => if isSlashChar c then '-' else c)
  let cs := cs.filter (fun c => !isBadChar c)
  let cs := cs.map (fun c => if c = '\t' then ' ' else c)
  let cs := pyStripChars [' ', '\t', '.'] cs
  let cs := if cs.take 2 = ['_', '_'] then cs.drop 2 else cs
  let cs := if cs = [] then dflt.data else cs
  String.mk (cs.map Char.toLower)

/-- `os.path.join` for the two-argument uses in the source (second argument
never absolute). -/
def os_path_join (path name : String) : String :=
  if path = "" then name else path ++ "/" ++ name

/-- `os.path.basename`. -/
def os_path_basename (p : String) : String :=
  String.mk ((p.data.reverse.takeWhile (fun c => c ≠ '/')).reverse)

/-- The `while True` probe loop of `get_unique_filename`: try
`filename + sep + i + ext` for increasing `i`; `onDisk` is the set of paths
for which `os.path.exists` answers true.  Fuel bounds the search. -/
def get_unique_filename_go (onDisk : List String) (path filename ext sep : String) :
    Nat → Nat → Option String
  | 0, _ => none
  | fuel + 1, i =>
    let newname := os_path_join path (filename ++ sep ++ toString i ++ ext)
    if onDisk.contains newname then
      get_unique_filename_go onDisk path filename ext sep fuel (i + 1)
    else some newname

/-- `get_unique_filename(path, filename, ext="", sep=" ", number=2)`. -/
def get_unique_filename (onDisk : List String) (path filename ext sep : String)
    (number fuel : Nat) : Option String :=
  let newname := os_path_join path (filename ++ ext)
  if onDisk.contains newname then
    get_unique_filename_go onDisk path filename ext sep fuel number
  else some newname

/-- `get_valid_unique_filename(path, filename, ext="", sep=" ", number=2)`:
compose sanitization and the uniqueness probe. -/
def get_valid_unique_filename (onDisk : List String) (path filename ext sep : String)
    (number fuel : Nat) : Option String :=
  get_unique_filename onDisk path (get_valid_filename filename "folder") ext sep number fuel

/-! ## Errors (`NoteBookError`, `NoteBookVersionError`) -/

inductive NBErr where
  | nbError (msg : String)
  | nbVersionError (notebook_version readable_version : Int)
deriving DecidableEq, Repr

/-- The observable outcome of a fallible notebook operation: normal return
or a raised `NoteBookError`. -/
inductive NBRes where
  | ok
  | err (e : NBErr)
deriving DecidableEq, Repr

/-! ## Preferences (`NoteBookPreferences`, `NoteBook.read_preferences`) -/

structure NoteBookPreferences where
  version : Int
  default_font : String
deriving DecidableEq, Repr

/-- `NoteBookPreferences.__init__`. -/
def NoteBookPreferences.init : NoteBookPreferences :=
  { version := NOTEBOOK_FORMAT_VERSION, default_font := DEFAULT_FONT }

/-- What opening and parsing the preferences file can yield. -/
inductive PrefFile where
  | ioError
  | xmlError
  | content (version : Int) (default_font : String)
deriving DecidableEq, Repr

inductive PrefParseErr where
  | io
  | xml
deriving DecidableEq, Repr

/-- Modelled from the spec: `g_notebook_pref_parser.read` lives in
`keepnote.xmlobject`, which is not under `src/`.  Per spec §4.9/§6 the
preferences file is a version element (integer) plus a default-font element
(text), and loading populates the target preferences record's fields from
the file — corroborated inside `notebook.py` by `get_notebook_version`,
which returns `pref.version` immediately after a `read`.  An I/O error and
malformed XML are the two wrapped failure cases. -/
def g_notebook_pref_read (file : PrefFile) (pref : NoteBookPreferences) :
    Except PrefParseErr NoteBookPreferences :=
  match file with
  | .ioError => .error .io
  | .xmlError => .error .xml
  | .content v f => .ok { pref with version := v, default_font := f }

/-- `NoteBook.read_preferences`: parse the file into `self.pref`, then gate
on the format version.  Returns the raised error (if any) paired with the
notebook's `pref` record as it stands after the call. -/
def read_preferences (file : PrefFile) (pref : NoteBookPreferences) :
    NBRes × NoteBookPreferences :=
  match g_notebook_pref_read file pref with
  | .error .io => (.err (.nbError "Cannot read notebook preferences"), pref)
  | .error .xml => (.err (.nbError "Notebook preference data is corrupt"), pref)
  | .ok pref2 =>
    if pref2.version > NOTEBOOK_FORMAT_VERSION then
      (.err (.nbVersionError pref2.version NOTEBOOK_FORMAT_VERSION), pref2)
    else (.ok, pref2)

/-! ## Rename (`NoteBookNode.rename`) -/

/-- The in-memory state of a node that `rename` touches: the `title`
attribute, the `_basename`, and the node's membership in the dirty set. -/
structure RenameNodeSt where
  title : String
  basename : String
  dirty : Bool
deriving DecidableEq, Repr

/-- `NoteBookNode.rename(title)`.  `isRoot` is `self._parent is None`;
`onDisk`, `parent_path` and `fuel` feed the `get_valid_unique_filename`
computation; `os_rename_ok` is the outcome of `os.rename`, and `save_ok`
the outcome of `write_meta_data` inside the forced `self.save(True)`.
The source applies `os.rename`, then mutates title and basename, then
saves; the surrounding `except (OSError, NoteBookError)` wraps either
failure in the rename error. -/
def NoteBookNode_rename (isRoot : Bool) (onDisk : List String) (parent_path : String)
    (fuel : Nat) (os_rename_ok save_ok : Bool) (n : RenameNodeSt) (title : String) :
    NBRes × RenameNodeSt :=
  if title = n.title then (.ok, n)
  else if isRoot then (.ok, { n with title := title, dirty := true })
  else
    match get_valid_unique_filename onDisk parent_path title "" " " 2 fuel with
    | none => (.err (.nbError "unique name search fuel exhausted"), n)
    | some path2 =>
      if os_rename_ok then
        let n2 : RenameNodeSt := { n with title := title, basename := os_path_basename path2 }
        if save_ok then (.ok, { n2 with dirty := false })
        else (.err (.nbError "Cannot rename"), n2)
      else (.err (.nbError "Cannot rename"), n)

/-- Concrete node used to exercise `NoteBookNode_rename`. -/
def c2_node0 : RenameNodeSt := { title := "a", basename := "a", dirty := false }

/-! ## Dirty tracking (`NoteBook._set_dirty_node`, `_is_dirty_node`) and the
attribute mutators of `NoteBookNode` -/

/-- `NoteBook._set_dirty_node(node, dirty)`: add to / remove from the
store's dirty set.  Nodes are identified by `Nat` ids. -/
def set_dirty_node (dirty : Finset Nat) (nid : Nat) (d : Bool) : Finset Nat :=
  if d then insert nid dirty else dirty.erase nid

/-- `NoteBook._is_dirty_node(node)`. -/
def is_dirty_node (dirty : Finset Nat) (nid : Nat) : Bool := decide (nid ∈ dirty)

/-- A node's attribute dict in iteration order. -/
abbrev AttrDict := List (String × PyVal)

/-- Python `d.get(k)` on the attribute dict. -/
def dictGet (m : AttrDict) (k : String) : Option PyVal :=
  (m.find? (fun p => p.1 == k)).map (fun p => p.2)

/-- Python `d[k] = v`: overwrite in place, else append. -/
def dictSet (m : AttrDict) (k : String) (v : PyVal) : AttrDict :=
  if (m.find? (fun p => p.1 == k)).isSome then
    m.map (fun p => if p.1 == k then (k, v) else p)
  else m ++ [(k, v)]

/-- Python `del d[k]`; `none` models the `KeyError` on a missing key. -/
def dictDel (m : AttrDict) (k : String) : Option AttrDict :=
  if (m.find? (fun p => p.1 == k)).isSome then
    some (m.filter (fun p => p.1 != k))
  else none

/-- A node as the attribute mutators see it. -/
structure NodeSt where
  id : Nat
  attr : AttrDict
deriving DecidableEq, Repr

/-- `NoteBookNode.set_attr(name, value)`: store the value and mark dirty. -/
def set_attr (dirty : Finset Nat) (n : NodeSt) (name : String) (value : PyVal) :
    NodeSt × Finset Nat :=
  ({ n with attr := dictSet n.attr name value }, set_dirty_node dirty n.id true)

/-- `NoteBookNode.set_attr_timestamp(name, timestamp=None)`; `now` is what
`get_timestamp()` returns when `timestamp` is `None`. -/
def set_attr_timestamp (dirty : Finset Nat) (n : NodeSt) (name : String)
    (timestamp : Option Int) (now : Int) : NodeSt × Finset Nat :=
  ({ n with attr := dictSet n.attr name (.pyint (timestamp.getD now)) },
   set_dirty_node dirty n.id true)

/-- `NoteBookNode.set_info_sort(info, sort_dir)`: set both sort attributes
and mark dirty. -/
def set_info_sort (dirty : Finset Nat) (n : NodeSt) (info sort_dir : Int) :
    NodeSt × Finset Nat :=
  ({ n with attr := dictSet (dictSet n.attr "info_sort" (.pyint info))
              "info_sort_dir" (.pyint sort_dir) },
   set_dirty_node dirty n.id true)

/-- `NoteBookNode.del_attr(name)`: delete the attribute; the source does
*not* call `_set_dirty` here, so the dirty set is returned untouched. -/
def del_attr (dirty : Finset Nat) (n : NodeSt) (name : String) :
    Option (NodeSt × Finset Nat) :=
  (dictDel n.attr name).map (fun a => ({ n with attr := a }, dirty))

/-- Concrete node used to exercise the attribute mutators. -/
def c3_node : NodeSt :=
  { id := 1, attr := [("title", .pystr "t"), ("expanded", .pybool false)] }

/-! ## Children, sibling ordering, and moves
(`NoteBookNode._get_children`, `_set_child_order`, `_add_child`,
`_remove_child`, `move`) -/

/-- A loaded child as the ordering code sees it: its identity and its
`order` attribute. -/
structure Child where
  id : Nat
  order : Int
deriving DecidableEq, Repr

/-- `NoteBookNode._set_child_order`, generalized over the start index of
`enumerate`: stamp each child's `order` with its list position; children
whose order actually changed are marked dirty. -/
def set_child_order_from (i : Nat) (cs : List Child) (dirty : Finset Nat) :
    List Child × Finset Nat :=
  match cs with
  | [] => ([], dirty)
  | c :: rest =>
    if c.order = (i : Int) then
      let r := set_child_order_from (i + 1) rest dirty
      (c :: r.1, r.2)
    else
      let r := set_child_order_from (i + 1) rest (set_dirty_node dirty c.id true)
      ({ c with order := (i : Int) } :: r.1, r.2)

/-- `NoteBookNode._set_child_order`. -/
def set_child_order (cs : List Child) (dirty : Finset Nat) : List Child × Finset Nat :=
  set_child_order_from 0 cs dirty

/-- Python's `self._children.sort(key=lambda x: x._attr["order"])`: a stable
ascending sort by `order` (any stable sort computes the same list). -/
def py_sort_by_order (cs : List Child) : List Child :=
  List.insertionSort (fun a b => a.order ≤ b.order) cs

/-- The in-memory tail of `NoteBookNode._get_children`: given the child
nodes reconstructed from the directory listing (with their stored `order`
attributes), sort by stored order, then renumber. -/
def get_children_load (loaded : List Child) (dirty : Finset Nat) :
    List Child × Finset Nat :=
  set_child_order (py_sort_by_order loaded) dirty

/-- Spec-level description of renumbering: stamp positions `i, i+1, …`
unconditionally (agrees with `set_child_order_from` on the list part). -/
def renum_from (i : Nat) : List Child → List Child
  | [] => []
  | c :: rest => { c with order := (i : Int) } :: renum_from (i + 1) rest

/-- The ids of the children whose stored `order` disagrees with their list
position — exactly the ones `_set_child_order` marks dirty. -/
def order_mismatch_ids (i : Nat) : List Child → List Nat
  | [] => []
  | c :: rest =>
    if c.order = (i : Int) then order_mismatch_ids (i + 1) rest
    else c.id :: order_mismatch_ids (i + 1) rest

/-- Python `list.remove(node)` by identity: drop the first child with the
given id. -/
def py_list_remove (cs : List Child) (nid : Nat) : List Child :=
  match cs with
  | [] => []
  | c :: rest => if c.id = nid then rest else c :: py_list_remove rest nid

/-- Python `list.insert(i, x)`: the index clamps to the list length. -/
def py_list_insert (cs : List Child) (i : Nat) (c : Child) : List Child :=
  List.insertIdx (min i cs.length) c cs

/-- `NoteBookNode._add_child(child, index)` with an explicit index: insert
at the index, renumber all siblings, mark the child dirty. -/
def add_child_at (cs : List Child) (c : Child) (index : Nat) (dirty : Finset Nat) :
    List Child × Finset Nat :=
  let r := set_child_order (py_list_insert cs index c) dirty
  (r.1, set_dirty_node r.2 c.id true)

/-- `NoteBookNode.move(parent, index)` in the `parent is self._parent` case
(no on-disk move): remove self from the loaded children, decrement the
requested index when moving forward past the current slot
(`if self._attr["order"] < index: index -= 1`), reinsert, renumber, then
`self._set_dirty(True)` followed by the forced `self.save(True)` (which
writes the metadata and ends with `_set_dirty(False)`). -/
def move_same_parent (children : List Child) (selfId : Nat) (index : Nat)
    (dirty : Finset Nat) : List Child × Finset Nat :=
  match children.find? (fun c => c.id == selfId) with
  | none => (children, dirty)
  | some c =>
    let cs := py_list_remove children selfId
    let index2 := if c.order < (index : Int) then index - 1 else index
    let r := add_child_at cs c index2 dirty
    (r.1, set_dirty_node (set_dirty_node r.2 selfId true) selfId false)

/-! ## Trash (`NoteBookTrash.move`, `NoteBookTrash.delete`) -/

/-- The state `NoteBookTrash.move` / `delete` can affect: the root's loaded
children, the store's dirty set, and a log of performed filesystem
mutations. -/
structure TreeSt where
  children : List Child
  dirty : Finset Nat
  fsLog : List String
deriving DecidableEq

/-- `NoteBookNode.move` for a same-parent move at the `TreeSt` level: the
tree move plus the metadata write performed by the forced save. -/
def node_move_same_parent (s : TreeSt) (selfId : Nat) (index : Nat) : NBRes × TreeSt :=
  let r := move_same_parent s.children selfId index s.dirty
  (.ok, { children := r.1, dirty := r.2,
          fsLog := s.fsLog ++ ["write_meta " ++ toString selfId] })

/-- `NoteBookTrash.move(parent, index)`: delegate to the ordinary node move
when `parent` is the notebook root (which is the trash's parent); any other
destination raises before anything is touched. -/
def trash_move (s : TreeSt) (trashId rootId parent : Nat) (index : Nat) :
    NBRes × TreeSt :=
  if parent = rootId then node_move_same_parent s trashId index
  else (.err (.nbError "The Trash folder must be a top-level folder."), s)

/-- `NoteBookTrash.delete`: always raises; nothing is touched. -/
def trash_delete (s : TreeSt) : NBRes × TreeSt :=
  (.err (.nbError "The Trash folder cannot be deleted."), s)

/-! ## Store-level save (`NoteBook.save`, `NoteBookNode.save`,
`NoteBook.save_needed`) -/

/-- `NoteBook.save_needed()`: `len(self._dirty) > 0`. -/
def save_needed (dirty : Finset Nat) : Bool := decide (0 < dirty.card)

/-- `NoteBookNode.save(force)` as it affects the dirty set and the written
metadata files: write when `(force or dirty) and valid`, then clear the
node's dirty flag.  `writes` accumulates the ids whose metadata was
written. -/
def node_save (valid : Nat → Bool) (force : Bool) (nid : Nat)
    (dirty : Finset Nat) (writes : List Nat) : Finset Nat × List Nat :=
  if (force || is_dirty_node dirty nid) && valid nid then
    (set_dirty_node dirty nid false, writes ++ [nid])
  else (dirty, writes)

/-- `NoteBook.save(force=False)`: write the root's metadata and preferences
when the root itself is dirty, clear the root's flag, run `node.save()` on
a snapshot of the dirty set (`snapshot` stands for `list(self._dirty)`,
whose iteration order Python leaves arbitrary), then unconditionally
`self._dirty.clear()`.  Returns the final dirty set, the ids whose node
metadata was written, and whether the preferences file was written. -/
def notebook_save (valid : Nat → Bool) (rootId : Nat) (dirty : Finset Nat)
    (snapshot : List Nat) : Finset Nat × List Nat × Bool :=
  let rootDirty := is_dirty_node dirty rootId
  let writes0 := if rootDirty then [rootId] else []
  let dirty1 := set_dirty_node dirty rootId false
  let r := snapshot.foldl
    (fun (acc : Finset Nat × List Nat) nid => node_save valid false nid acc.1 acc.2)
    (dirty1, writes0)
  (∅, r.2, rootDirty)

/-! ## Decimal numerals (Python `str` and `int()` on integers) -/

/-- Little-endian base-10 digits, with structural fuel (any `fuel ≥ n`
computes the digits of `n`). -/
def digitsFuel : Nat → Nat → List Nat
  | 0, _ => []
  | fuel + 1, n => if n = 0 then [] else n % 10 :: digitsFuel fuel (n / 10)

/-- Python `str` of a natural number. -/
def pyStrOfNat (n : Nat) : List Char :=
  if n = 0 then ['0']
  else ((digitsFuel n n).map (fun d => Char.ofNat (48 + d))).reverse

/-- Python `str`/`unicode` of an int — the default attribute writer for
non-boolean types applied to an integer value. -/
def pyStrOfInt : Int → List Char
  | .ofNat n => pyStrOfNat n
  | .negSucc n => '-' :: pyStrOfNat (n + 1)

/-- The value of a decimal digit character. -/
def charDigit (c : Char) : Option Nat :=
  if 48 ≤ c.toNat ∧ c.toNat ≤ 57 then some (c.toNat - 48) else none

/-- Value of a non-empty all-digit string, most significant digit first. -/
def digitsVal (cs : List Char) : Option Nat :=
  if cs ≠ [] ∧ cs.all (fun c => (charDigit c).isSome) then
    some (cs.foldl (fun a c => a * 10 + ((charDigit c).getD 0)) 0)
  else none

/-- Model of Python's builtin `int(str)` (an external builtin): an optional
sign followed by decimal digits; anything else raises `ValueError`,
modelled as `none`. -/
def pyInt : List Char → Option Int
  | [] => none
  | c :: rest =>
    if c = '-' then (digitsVal rest).map (fun n => -(Int.ofNat n))
    else if c = '+' then (digitsVal rest).map (fun n => Int.ofNat n)
    else (digitsVal (c :: rest)).map (fun n => Int.ofNat n)

/-! ## Markup escaping (`xml.sax.saxutils.escape` and expat's entity
decoding) -/

/-- `xml.sax.saxutils.escape`, character by character: `&`, `<`, `>` become
entities (`escape` replaces `&` first, so the whole-string behaviour equals
this character-wise map). -/
def escapeChar (c : Char) : List Char :=
  if c = '&' then ['&', 'a', 'm', 'p', ';']
  else if c = '<' then ['&', 'l', 't', ';']
  else if c = '>' then ['&', 'g', 't', ';']
  else [c]

def sax_escape (cs : List Char) : List Char := (cs.map escapeChar).flatten

/-- The entity decoding expat applies to character data before handing it
to the `CharacterDataHandler` (modelling the external parser; only the
three entities the writer produces are relevant). -/
def expat_unescape : List Char → List Char
  | [] => []
  | '&' :: 'a' :: 'm' :: 'p' :: ';' :: rest => '&' :: expat_unescape rest
  | '&' :: 'l' :: 't' :: ';' :: rest => '<' :: expat_unescape rest
  | '&' :: 'g' :: 't' :: ';' :: rest => '>' :: expat_unescape rest
  | c :: rest => c :: expat_unescape rest

/-! ## Attribute schema (`NoteBookAttr`, `g_default_attrs`) -/

/-- The three datatypes appearing in `g_default_attrs`. -/
inductive AttrType where
  | text
  | int
  | bool
deriving DecidableEq, Repr

/-- `notebook_attrs` as seeded from `g_default_attrs`: key → datatype. -/
def notebook_attrs (key : String) : Option AttrType :=
  if key = "title" then some .text
  else if key = "content_type" then some .text
  else if key = "order" then some .int
  else if key = "created_time" then some .int
  else if key = "modified_time" then some .int
  else if key = "expanded" then some .bool
  else if key = "expanded2" then some .bool
  else if key = "info_sort" then some .int
  else if key = "info_sort_dir" then some .int
  else none

/-- `NoteBookAttr.write`: booleans as `unicode(int(x))` (`"0"`/`"1"`),
everything else via `unicode`.  Only value shapes matching the declared
datatype are modelled (`none` otherwise); the round-trip claim restricts
itself to well-typed values. -/
def attr_write : AttrType → PyVal → Option (List Char)
  | .text, .pystr s => some s.data
  | .int, .pyint i => some (pyStrOfInt i)
  | .bool, .pybool b => some (if b then ['1'] else ['0'])
  | _, _ => none

/-- `NoteBookAttr.read`: booleans via `bool(int(x))`, ints via `int`,
text via `unicode`.  A `ValueError` from `int()` is `none`. -/
def attr_read (ty : AttrType) (cs : List Char) : Option PyVal :=
  match ty with
  | .text => some (.pystr (String.mk cs))
  | .int => (pyInt cs).map .pyint
  | .bool => (pyInt cs).map (fun i => .pybool (decide (i ≠ 0)))

/-- Does a stored value have the shape of the declared datatype? -/
def typeMatches : AttrType → PyVal → Bool
  | .text, .pystr _ => true
  | .int, .pyint _ => true
  | .bool, .pybool _ => true
  | _, _ => false

/-- An attribute entry whose key is registered and whose value matches the
registered datatype. -/
def wellTypedAttr (kv : String × PyVal) : Bool :=
  match notebook_attrs kv.1 with
  | some ty => typeMatches ty kv.2
  | none => false

/-! ## Metadata writer (`NoteBookNodeMetaData.write`) -/

/-- One XML element as the writer lays it down: tag, tag attributes, and
the (already escaped) character content. -/
structure WElem where
  tag : String
  tagAttrs : List (String × String)
  text : List Char
deriving DecidableEq, Repr

/-- The writer's per-attribute behaviour: registered keys are written via
the schema writer with escaped content; an unregistered `version` key is
skipped; unregistered string values are written verbatim (key and value
escaped); other unregistered values are dropped. -/
def write_one_attr (k : String) (v : PyVal) : Option (List WElem) :=
  match notebook_attrs k with
  | some ty => (attr_write ty v).map (fun cs => [⟨"attr", [("key", k)], sax_escape cs⟩])
  | none =>
    if k = "version" then some []
    else
      match v with
      | .pystr s => some [⟨"attr", [("key", String.mk (sax_escape k.data))], sax_escape s.data⟩]
      | _ => some []

/-- `NoteBookNodeMetaData.write`: a `version` element holding
`str(node.get_version())`, then one element per attribute in dict order. -/
def meta_write (version : Int) (attrs : List (String × PyVal)) : Option (List WElem) :=
  (attrs.mapM (fun kv => write_one_attr kv.1 kv.2)).map
    (fun parts => { tag := "version", tagAttrs := [], text := pyStrOfInt version } :: parts.flatten)

/-! ## Metadata reader (`NoteBookNodeMetaData.read` and its expat
handlers) -/

/-- The expat events the reader's handlers receive. -/
inductive XEvent where
  | startE (name : String) (attrs : List (String × String))
  | endE (name : String)
  | chars (data : List Char)
deriving DecidableEq, Repr

/-- What expat delivers for one written element: start tag, character data
with entities decoded, end tag, and the newline the writer emits after the
element. -/
def elem_events (e : WElem) : List XEvent :=
  [.startE e.tag e.tagAttrs, .chars (expat_unescape e.text), .endE e.tag, .chars ['\n']]

/-- The event stream of the whole written document
(`<node>\n` elements `</node>\n`). -/
def doc_events (elems : List WElem) : List XEvent :=
  [.startE "node" [], .chars ['\n']] ++ (elems.map elem_events).flatten ++ [.endE "node"]

/-- The reader's handler state (`__meta_root`, `__meta_tag`, `__meta_attr`,
`__meta_data`, and the decoded `attr` dict, read through `get`). -/
structure MetaParseSt where
  meta_root : Bool
  meta_tag : Option String
  meta_attr : List (String × String)
  meta_data : Option (List Char)
  attr : String → Option PyVal

/-- Functional update of the decoded dict. -/
def fset (m : String → Option PyVal) (k : String) (v : PyVal) : String → Option PyVal :=
  fun k2 => if k2 = k then some v else m k2

/-- The `# clear state` tail of `__meta_end_element`. -/
def clear_tag_state (st : MetaParseSt) : MetaParseSt :=
  { st with meta_tag := none, meta_attr := [], meta_data := none }

/-- `__meta_start_element`: inside the root a pending tag means a nested
element — `raise Exception("corrupt meta file")`. -/
def meta_start_element (st : MetaParseSt) (name : String)
    (attrs : List (String × String)) : Except Unit MetaParseSt :=
  if st.meta_root then
    if st.meta_tag ≠ none then .error ()
    else .ok { st with meta_tag := some name, meta_attr := attrs, meta_data := some [] }
  else if name = "node" then .ok { st with meta_root := true }
  else .ok st

/-- `__meta_end_element`: close the root on `</node>`; otherwise decode the
pending `version` or `attr` element (schema reader for registered keys,
opaque text otherwise), then clear the per-tag state.  A `ValueError` from
`int()` propagates out of the handler (`.error`). -/
def meta_end_element (st0 : MetaParseSt) (name : String) : Except Unit MetaParseSt :=
  let st := if name = "node" then { st0 with meta_root := false } else st0
  if st.meta_root = false then .ok st
  else
    match st.meta_tag with
    | some t =>
      if t = "version" then
        match pyInt (st.meta_data.getD []) with
        | some v => .ok (clear_tag_state { st with attr := fset st.attr "version" (.pyint v) })
        | none => .error ()
      else if t = "attr" then
        match (st.meta_attr.find? (fun p => p.1 == "key")).map (fun p => p.2) with
        | some k =>
          match notebook_attrs k with
          | some ty =>
            match attr_read ty (st.meta_data.getD []) with
            | some v => .ok (clear_tag_state { st with attr := fset st.attr k v })
            | none => .error ()
          | none =>
            .ok (clear_tag_state
              { st with attr := fset st.attr k (.pystr (String.mk (st.meta_data.getD []))) })
        | none => .ok (clear_tag_state st)
      else .ok (clear_tag_state st)
    | none => .ok (clear_tag_state st)

/-- `__meta_char_data`: append to the pending data if a tag is open. -/
def meta_char_data (st : MetaParseSt) (d : List Char) : MetaParseSt :=
  match st.meta_data with
  | some cur => { st with meta_data := some (cur ++ d) }
  | none => st

/-- Dispatch one expat event to the matching handler. -/
def meta_step (st : MetaParseSt) (ev : XEvent) : Except Unit MetaParseSt :=
  match ev with
  | .startE name attrs => meta_start_element st name attrs
  | .endE name => meta_end_element st name
  | .chars d => .ok (meta_char_data st d)

/-- Feed an event stream through the handlers. -/
def meta_read_events (events : List XEvent) (st : MetaParseSt) :
    Except Unit MetaParseSt :=
  events.foldlM meta_step st

/-- The parser state `NoteBookNodeMetaData.read` starts from: fresh handler
state and an `attr` dict pre-seeded with `created_time`/`modified_time`
= `None`. -/
def init_parse_state : MetaParseSt :=
  { meta_root := false, meta_tag := none, meta_attr := [], meta_data := none,
    attr := fset (fset (fun _ => none) "created_time" .pynone) "modified_time" .pynone }

/-- `NoteBookNodeMetaData.read`: run the parser over the events, then
default a still-`None` `created_time`/`modified_time` to the current
timestamp `now`. -/
def meta_read (now : Int) (events : List XEvent) :
    Except Unit (String → Option PyVal) :=
  (meta_read_events events init_parse_state).map (fun st =>
    let a := st.attr
    let a := if a "created_time" = some .pynone then fset a "created_time" (.pyint now) else a
    let a := if a "modified_time" = some .pynone then fset a "modified_time" (.pyint now) else a
    a)

/-- A parser state with the root open and no tag pending — the state
between two elements. -/
def ready_state (m : String → Option PyVal) : MetaParseSt :=
  { meta_root := true, meta_tag := none, meta_attr := [], meta_data := none, attr := m }

/-- The content the writer produces for a well-typed value, before
escaping. -/
def attr_write_typed (v : PyVal) : List Char :=
  match v with
  | .pystr s => s.data
  | .pyint i => pyStrOfInt i
  | .pybool b => if b then ['1'] else ['0']
  | .pynone => []

/-- The element the writer produces for a registered, well-typed
attribute. -/
def attr_elem (k : String) (v : PyVal) : WElem :=
  { tag := "attr", tagAttrs := [("key", k)], text := sax_escape (attr_write_typed v) }

end KeepNote

namespace KeepNote

/-! # Theorems -/

/-- **C9** (implicit): filename sanitization removes only a single leading
double-underscore pair, so it is not idempotent: `get_valid_filename "____x"`
is `"__x"`, which still begins with the reserved `__` prefix, and a second
application gives `"x"`, a different result. -/
theorem C9_get_valid_filename_not_idempotent :
    get_valid_filename "____x" "folder" = "__x" ∧
    (get_valid_filename "____x" "folder").data.take 2 = ['_', '_'] ∧
    get_valid_filename (get_valid_filename "____x" "folder") "folder" = "x" ∧
    get_valid_filename (get_valid_filename "____x" "folder") "folder" ≠
      get_valid_filename "____x" "folder" := by
  decide

/-- **C1** (counterexample): reading a preferences file with version 3 does
raise `NoteBookVersionError`, but the notebook's `pref` record is *not* the
same after the failed call — the parser populated it from the file before
the version check, so `pref.version` is now 3. -/
theorem C1_pref_mutated_counterexample :
    (read_preferences (.content 3 "Serif 12") NoteBookPreferences.init).1 =
      .err (.nbVersionError 3 2) ∧
    (read_preferences (.content 3 "Serif 12") NoteBookPreferences.init).2 ≠
      NoteBookPreferences.init := by
  decide

/-- **C1** (amended): reading a preferences file whose version exceeds
`NOTEBOOK_FORMAT_VERSION` raises `NoteBookVersionError`, but only after the
in-memory pref record has been overwritten with the decoded file contents:
after the failed call `pref.version` equals the file's version. -/
theorem C1_version_gate (file_version : Int) (font : String)
    (pref : NoteBookPreferences) (h : file_version > NOTEBOOK_FORMAT_VERSION) :
    read_preferences (.content file_version font) pref =
      (.err (.nbVersionError file_version NOTEBOOK_FORMAT_VERSION),
       { version := file_version, default_font := font }) := by
  simp [read_preferences, g_notebook_pref_read, h]

theorem C1_version_gate_witness :
    (3 : Int) > NOTEBOOK_FORMAT_VERSION ∧
    read_preferences (.content 3 "Serif 12") NoteBookPreferences.init =
      (.err (.nbVersionError 3 NOTEBOOK_FORMAT_VERSION),
       { version := 3, default_font := "Serif 12" }) :=
  ⟨by decide, C1_version_gate 3 "Serif 12" NoteBookPreferences.init (by decide)⟩

/-- **C2** (counterexample): when the on-disk `os.rename` succeeds but the
forced save inside `rename` fails, the wrapped rename error is raised, yet
the node's in-memory title and basename hold the *new* values — the state
is not unchanged from before the attempt. -/
theorem C2_rename_failed_save_counterexample :
    (NoteBookNode_rename false [] "" 5 true false c2_node0 "b").1 =
      .err (.nbError "Cannot rename") ∧
    (NoteBookNode_rename false [] "" 5 true false c2_node0 "b").2 ≠ c2_node0 ∧
    (NoteBookNode_rename false [] "" 5 true false c2_node0 "b").2.title = "b" := by
  decide

/-- **C2** (amended): for a non-root node renamed to a different title,
(a) if the directory rename itself fails, the rename error is raised and
the in-memory state is exactly as before the attempt; (b) if the directory
rename succeeds but the forced save fails, the rename error is still
raised, but the title and basename retain the new values. -/
theorem C2_rename_failure_state (onDisk : List String) (parent_path : String)
    (fuel : Nat) (save_ok : Bool) (n : RenameNodeSt) (title path2 : String)
    (hdiff : title ≠ n.title)
    (hpath : get_valid_unique_filename onDisk parent_path title "" " " 2 fuel = some path2) :
    NoteBookNode_rename false onDisk parent_path fuel false save_ok n title =
      (.err (.nbError "Cannot rename"), n) ∧
    NoteBookNode_rename false onDisk parent_path fuel true false n title =
      (.err (.nbError "Cannot rename"),
       { n with title := title, basename := os_path_basename path2 }) := by
  constructor <;> simp [NoteBookNode_rename, hdiff, hpath]

theorem C2_rename_failure_state_witness :
    ("b" ≠ c2_node0.title ∧
      get_valid_unique_filename [] "" "b" "" " " 2 5 = some "b") ∧
    (NoteBookNode_rename false [] "" 5 false false c2_node0 "b" =
        (.err (.nbError "Cannot rename"), c2_node0) ∧
      NoteBookNode_rename false [] "" 5 true false c2_node0 "b" =
        (.err (.nbError "Cannot rename"),
         { c2_node0 with title := "b", basename := os_path_basename "b" })) :=
  ⟨⟨by decide, by decide⟩,
   C2_rename_failure_state [] "" 5 false c2_node0 "b" "b" (by decide) (by decide)⟩

/-- **C3** (code bug): `set_attr`, `set_attr_timestamp` and `set_info_sort`
all mark the node dirty, but `del_attr` deletes the attribute without
touching the dirty set: on a clean node, deleting an existing attribute
leaves the node clean, contradicting the claim that every attribute
mutation marks the node dirty. -/
theorem C3_del_attr_leaves_node_clean :
    is_dirty_node (set_attr ∅ c3_node "title" (.pystr "u")).2 1 = true ∧
    is_dirty_node (set_attr_timestamp ∅ c3_node "modified_time" none 77).2 1 = true ∧
    is_dirty_node (set_info_sort ∅ c3_node 2 1).2 1 = true ∧
    del_attr ∅ c3_node "expanded" =
      some ({ id := 1, attr := [("title", .pystr "t")] }, ∅) ∧
    is_dirty_node (∅ : Finset Nat) 1 = false := by
  decide

/-- **C4**: on a directory containing exactly `notes`, `notes 2`, `notes 3`,
the composed valid-unique-name operation for title `"Notes"` and empty
extension lower-cases the title to `notes`, finds the base name and the
suffixes `2` and `3` taken, and returns the first free probe `"notes 4"`. -/
theorem C4_valid_unique_filename_notes4 :
    get_valid_unique_filename ["notes", "notes 2", "notes 3"] "" "Notes" "" " " 2 10 =
      some "notes 4" := by
  decide

/-! ### Renumbering lemmas -/

theorem set_child_order_from_eq (cs : List Child) : ∀ (i : Nat) (dirty : Finset Nat),
    set_child_order_from i cs dirty =
      (renum_from i cs, dirty ∪ (order_mismatch_ids i cs).toFinset) := by
  induction cs with
  | nil => intro i dirty; simp [set_child_order_from, renum_from, order_mismatch_ids]
  | cons c rest ih =>
    intro i dirty
    by_cases h : c.order = (i : Int)
    · obtain ⟨cid, cord⟩ := c
      simp only at h
      simp [set_child_order_from, renum_from, order_mismatch_ids, h, ih]
    · simp [set_child_order_from, renum_from, order_mismatch_ids, h, ih,
        set_dirty_node, Finset.insert_union, Finset.union_insert]

theorem renum_from_map_id (cs : List Child) :
    ∀ i, (renum_from i cs).map Child.id = cs.map Child.id := by
  induction cs with
  | nil => intro i; rfl
  | cons c rest ih => intro i; simp [renum_from, ih]

theorem renum_from_map_order (cs : List Child) :
    ∀ i, (renum_from i cs).map Child.order =
      (List.range' i cs.length).map (Nat.cast : Nat → Int) := by
  induction cs with
  | nil => intro i; rfl
  | cons c rest ih => intro i; simp [renum_from, ih, List.range'_succ]

theorem map_insertIdx (f : Child → Nat) :
    ∀ (i : Nat) (a : Child) (l : List Child),
      (List.insertIdx i a l).map f = List.insertIdx i (f a) (l.map f) := by
  intro i
  induction i with
  | zero => intro a l; simp
  | succ i ih =>
    intro a l
    cases l with
    | nil => rfl
    | cons b t => simp [List.insertIdx_succ_cons, ih]

theorem map_eraseIdx (f : Child → Nat) :
    ∀ (l : List Child) (p : Nat), (l.eraseIdx p).map f = (l.map f).eraseIdx p := by
  intro l
  induction l with
  | nil => intro p; rfl
  | cons b t ih =>
    intro p
    cases p with
    | zero => rfl
    | succ p => simp [List.eraseIdx_cons_succ, ih]

theorem find_id_of_nodup :
    ∀ (children : List Child) (p : Nat) (c : Child),
      children[p]? = some c → (children.map Child.id).Nodup →
      children.find? (fun x => x.id == c.id) = some c := by
  intro children
  induction children with
  | nil => intro p c h; simp at h
  | cons d rest ih =>
    intro p c h hnd
    cases p with
    | zero =>
      simp at h
      subst h
      simp [List.find?_cons]
    | succ p =>
      simp at h
      have hmem : c ∈ rest := List.getElem?_mem h
      have hne : d.id ≠ c.id := by
        simp at hnd
        intro heq
        exact hnd.1 c hmem heq.symm
      rw [List.find?_cons]
      have : (d.id == c.id) = false := by simp [hne]
      rw [this]
      exact ih p c h (by simp at hnd ⊢; exact hnd.2)

theorem remove_eq_eraseIdx :
    ∀ (children : List Child) (p : Nat) (c : Child),
      children[p]? = some c → (children.map Child.id).Nodup →
      py_list_remove children c.id = children.eraseIdx p := by
  intro children
  induction children with
  | nil => intro p c h; simp at h
  | cons d rest ih =>
    intro p c h hnd
    cases p with
    | zero =>
      simp at h
      subst h
      simp [py_list_remove]
    | succ p =>
      simp at h
      have hmem : c ∈ rest := List.getElem?_mem h
      have hne : d.id ≠ c.id := by
        simp at hnd
        intro heq
        exact hnd.1 c hmem heq.symm
      simp only [py_list_remove, List.eraseIdx_cons_succ]
      rw [if_neg (by simpa using fun heq => hne heq)]
      congr 1
      exact ih p c h (by simp at hnd ⊢; exact hnd.2)

theorem order_at_of_contiguous (children : List Child) (p : Nat) (c : Child)
    (h : children[p]? = some c)
    (horders : children.map Child.order = (List.range children.length).map (Nat.cast : Nat → Int)) :
    c.order = (p : Int) := by
  obtain ⟨hp, hc⟩ := List.getElem?_eq_some.mp h
  have h4 : (children.map Child.order)[p]? =
      ((List.range children.length).map (Nat.cast : Nat → Int))[p]? := by
    rw [horders]
  rw [List.getElem?_map, List.getElem?_map, h, List.getElem?_range hp] at h4
  simp at h4
  exact h4

/-- **C5**: for the same-parent move the requested index is decremented by
one exactly when the node's current order is strictly below it.
Concretely, moving the third child `c` of `[a, b, c]` (orders `0,1,2`) to
index `0` yields `[c, a, b]` with orders `0,1,2`; in general, with
contiguous orders, moving the child at position `p` to index `index`
re-inserts its id at position `index - 1` when `p < index` and at `index`
otherwise, and the final orders are again the contiguous sequence. -/
theorem C5_move_same_parent :
    (move_same_parent [⟨1, 0⟩, ⟨2, 1⟩, ⟨3, 2⟩] 3 0 ∅ =
      ([⟨3, 0⟩, ⟨1, 1⟩, ⟨2, 2⟩], {1, 2})) ∧
    ∀ (children : List Child) (c : Child) (p index : Nat) (dirty : Finset Nat),
      children[p]? = some c →
      index ≤ children.length →
      (children.map Child.id).Nodup →
      children.map Child.order = (List.range children.length).map (Nat.cast : Nat → Int) →
      (move_same_parent children c.id index dirty).1.map Child.id =
        List.insertIdx (if p < index then index - 1 else index) c.id
          ((children.map Child.id).eraseIdx p) ∧
      (move_same_parent children c.id index dirty).1.map Child.order =
        (List.range children.length).map (Nat.cast : Nat → Int) := by
  constructor
  · decide
  · intro children c p index dirty hget hidx hnd horders
    have hp : p < children.length := (List.getElem?_eq_some.mp hget).1
    have hfind := find_id_of_nodup children p c hget hnd
    have hrem := remove_eq_eraseIdx children p c hget hnd
    have hord := order_at_of_contiguous children p c hget horders
    have hlt : (c.order < (index : Int)) ↔ p < index := by
      rw [hord]; exact_mod_cast Int.ofNat_lt
    have hif : (if c.order < (index : Int) then index - 1 else index) =
        (if p < index then index - 1 else index) := by
      by_cases hcase : p < index
      · rw [if_pos (hlt.mpr hcase), if_pos hcase]
      · rw [if_neg (fun hh => hcase (hlt.mp hh)), if_neg hcase]
    have hlen : (children.eraseIdx p).length = children.length - 1 := by
      rw [List.length_eraseIdx]
      simp [hp]
    have hmin : min (if p < index then index - 1 else index) (children.eraseIdx p).length =
        (if p < index then index - 1 else index) := by
      rw [hlen]
      by_cases hcase : p < index
      · rw [if_pos hcase]; omega
      · rw [if_neg hcase]; omega
    have hmove : move_same_parent children c.id index dirty =
        (renum_from 0 (List.insertIdx (if p < index then index - 1 else index) c
            (children.eraseIdx p)),
         set_dirty_node (set_dirty_node
           (set_dirty_node (dirty ∪
             (order_mismatch_ids 0 (List.insertIdx (if p < index then index - 1 else index) c
               (children.eraseIdx p))).toFinset)
             c.id true) c.id true) c.id false) := by
      rw [move_same_parent, hfind]
      simp only [hrem, hif, add_child_at, py_list_insert, hmin, set_child_order,
        set_child_order_from_eq]
    rw [hmove]
    constructor
    · simp only [renum_from_map_id, map_insertIdx Child.id, map_eraseIdx Child.id]
    · rw [renum_from_map_order, List.length_insertIdx _ _ ?hle, ← List.range_eq_range']
      case hle =>
        rw [hlen]
        by_cases hcase : p < index
        · rw [if_pos hcase]; omega
        · rw [if_neg hcase]; omega
      congr 2
      omega

theorem C5_move_same_parent_witness :
    (([⟨1, 0⟩, ⟨2, 1⟩, ⟨3, 2⟩] : List Child)[2]? = some ⟨3, 2⟩ ∧ 0 ≤ 3 ∧
      (([⟨1, 0⟩, ⟨2, 1⟩, ⟨3, 2⟩] : List Child).map Child.id).Nodup) ∧
    (move_same_parent [⟨1, 0⟩, ⟨2, 1⟩, ⟨3, 2⟩] 3 0 ∅).1.map Child.id =
      List.insertIdx (if 2 < 0 then 0 - 1 else 0) 3
        ((([⟨1, 0⟩, ⟨2, 1⟩, ⟨3, 2⟩] : List Child).map Child.id).eraseIdx 2) ∧
    (move_same_parent [⟨1, 0⟩, ⟨2, 1⟩, ⟨3, 2⟩] 3 0 ∅).1.map Child.order =
      (List.range 3).map (Nat.cast : Nat → Int) :=
  ⟨⟨by decide, by decide, by decide⟩,
   C5_move_same_parent.2 [⟨1, 0⟩, ⟨2, 1⟩, ⟨3, 2⟩] ⟨3, 2⟩ 2 0 ∅
     (by decide) (by decide) (by decide) (by decide)⟩

/-- **C6**: `get_children` loading — e.g. three children with stored orders
`2, 0, 1` — returns the children sorted ascending by stored order and
renumbered to the contiguous 0-based sequence matching list position, and
exactly the children whose `order` changed during renumbering are marked
dirty (in the example, none change, so none are marked). -/
theorem C6_get_children_sorted_renumbered :
    (get_children_load [⟨1, 2⟩, ⟨2, 0⟩, ⟨3, 1⟩] ∅ =
      ([⟨2, 0⟩, ⟨3, 1⟩, ⟨1, 2⟩], ∅)) ∧
    ∀ (loaded : List Child) (dirty : Finset Nat),
      List.Sorted (fun a b => a.order ≤ b.order) (py_sort_by_order loaded) ∧
      (py_sort_by_order loaded).Perm loaded ∧
      (get_children_load loaded dirty).1.map Child.id =
        (py_sort_by_order loaded).map Child.id ∧
      (get_children_load loaded dirty).1.map Child.order =
        (List.range loaded.length).map (Nat.cast : Nat → Int) ∧
      (get_children_load loaded dirty).2 =
        dirty ∪ (order_mismatch_ids 0 (py_sort_by_order loaded)).toFinset := by
  constructor
  · decide
  · intro loaded dirty
    have hperm : (py_sort_by_order loaded).Perm loaded := by
      unfold py_sort_by_order
      exact List.perm_insertionSort _ loaded
    have hsorted : List.Sorted (fun a b => a.order ≤ b.order) (py_sort_by_order loaded) := by
      unfold py_sort_by_order
      exact @List.sorted_insertionSort Child (fun a b => a.order ≤ b.order) _
        ⟨fun a b => le_total a.order b.order⟩
        ⟨fun a b c hab hbc => le_trans hab hbc⟩ loaded
    have hload : get_children_load loaded dirty =
        (renum_from 0 (py_sort_by_order loaded),
         dirty ∪ (order_mismatch_ids 0 (py_sort_by_order loaded)).toFinset) := by
      rw [get_children_load, set_child_order, set_child_order_from_eq]
    refine ⟨hsorted, hperm, ?_, ?_, ?_⟩
    · rw [hload]; exact renum_from_map_id _ 0
    · rw [hload]
      simp only [renum_from_map_order, ← List.range_eq_range']
      rw [hperm.length_eq]
    · rw [hload]

/-- **C7**: the Trash node's `delete` always raises and touches neither the
tree nor the disk; its `move` raises whenever the destination parent is not
the notebook root, with the state (children, dirty set, filesystem log)
unchanged; and a `move` whose destination is the root is exactly the
ordinary node move within the root. -/
theorem C7_trash_guards (s : TreeSt) (trashId rootId parent index : Nat) :
    trash_delete s = (.err (.nbError "The Trash folder cannot be deleted."), s) ∧
    (parent ≠ rootId →
      trash_move s trashId rootId parent index =
        (.err (.nbError "The Trash folder must be a top-level folder."), s)) ∧
    trash_move s trashId rootId rootId index = node_move_same_parent s trashId index := by
  refine ⟨rfl, fun h => ?_, ?_⟩
  · simp [trash_move, h]
  · simp [trash_move]

theorem C7_trash_guards_witness :
    trash_move ⟨[⟨7, 0⟩], ∅, []⟩ 7 0 5 0 =
      (.err (.nbError "The Trash folder must be a top-level folder."),
       ⟨[⟨7, 0⟩], ∅, []⟩) :=
  (C7_trash_guards ⟨[⟨7, 0⟩], ∅, []⟩ 7 0 5 0).2.1 (by decide)

/-! ### Store-save lemmas -/

theorem foldl_node_save_writes (valid : Nat → Bool) (P : Nat → Prop)
    (hP : ∀ nid, valid nid = true → P nid) :
    ∀ (l : List Nat) (acc : Finset Nat × List Nat), (∀ nid ∈ acc.2, P nid) →
      ∀ nid ∈ (l.foldl
        (fun acc nid => node_save valid false nid acc.1 acc.2) acc).2, P nid := by
  intro l
  induction l with
  | nil => intro acc hacc nid h; exact hacc nid h
  | cons x t ih =>
    intro acc hacc nid h
    refine ih (node_save valid false x acc.1 acc.2) ?_ nid h
    intro nid2 h2
    rw [node_save] at h2
    by_cases hcond : ((false || is_dirty_node acc.1 x) && valid x) = true
    · rw [if_pos hcond] at h2
      simp at h2
      rcases h2 with h2 | h2
      · exact hacc nid2 h2
      · subst h2
        rw [Bool.and_eq_true] at hcond
        exact hP _ hcond.2
    · rw [if_neg hcond] at h2
      exact hacc nid2 h2

/-- **C10** (implicit): `NoteBook.save` with `force=False` unconditionally
empties the dirty set — afterwards `save_needed()` is false — and the only
node metadata files written are the root's and those of *valid* dirty
nodes; invalid (deleted) dirty nodes write nothing yet still disappear from
the dirty set. -/
theorem C10_save_empties_dirty (valid : Nat → Bool) (rootId : Nat)
    (dirty : Finset Nat) (snapshot : List Nat) :
    (notebook_save valid rootId dirty snapshot).1 = ∅ ∧
    save_needed (notebook_save valid rootId dirty snapshot).1 = false ∧
    ∀ nid ∈ (notebook_save valid rootId dirty snapshot).2.1,
      nid = rootId ∨ valid nid = true := by
  refine ⟨rfl, rfl, ?_⟩
  intro nid h
  rw [notebook_save] at h
  simp only at h
  refine foldl_node_save_writes valid (fun n => n = rootId ∨ valid n = true)
    (fun n hv => Or.inr hv) snapshot _ ?_ nid h
  intro nid2 h2
  by_cases hr : is_dirty_node dirty rootId = true
  · rw [if_pos hr] at h2
    simp at h2
    exact Or.inl h2
  · rw [if_neg hr] at h2
    simp at h2

/-! ### Decimal numeral round-trip -/

theorem digitsFuel_eq_digits : ∀ (fuel n : Nat), n ≤ fuel →
    digitsFuel fuel n = Nat.digits 10 n := by
  intro fuel
  induction fuel with
  | zero =>
    intro n hn
    have : n = 0 := by omega
    subst this
    simp [digitsFuel]
  | succ fuel ih =>
    intro n hn
    by_cases h : n = 0
    · subst h; simp [digitsFuel]
    · rw [digitsFuel, if_neg h,
        Nat.digits_def' (by norm_num : (1 : Nat) < 10) (Nat.pos_of_ne_zero h)]
      congr 1
      refine ih (n / 10) ?_
      have := Nat.div_lt_self (Nat.pos_of_ne_zero h) (by norm_num : 1 < 10)
      omega

theorem charDigit_digitChar : ∀ d, d < 10 → charDigit (Char.ofNat (48 + d)) = some d := by
  decide

theorem foldl_digits_val (ds : List Nat) (hd : ∀ d ∈ ds, d < 10) :
    ∀ a, ((ds.map (fun d => Char.ofNat (48 + d))).reverse).foldl
        (fun a c => a * 10 + ((charDigit c).getD 0)) a =
      a * 10 ^ ds.length + Nat.ofDigits 10 ds := by
  induction ds with
  | nil => intro a; simp
  | cons d tail ih =>
    intro a
    have hrev : ((d :: tail).map (fun d => Char.ofNat (48 + d))).reverse =
        (tail.map (fun d => Char.ofNat (48 + d))).reverse ++ [Char.ofNat (48 + d)] := by
      simp
    rw [hrev, List.foldl_append, ih (fun x hx => hd x (List.mem_cons_of_mem _ hx))]
    simp only [List.foldl_cons, List.foldl_nil]
    rw [charDigit_digitChar d (hd d (List.mem_cons_self d tail))]
    simp only [Option.getD_some, Nat.ofDigits_cons, List.length_cons]
    ring

theorem digitsVal_pyStrOfNat (n : Nat) : digitsVal (pyStrOfNat n) = some n := by
  by_cases h : n = 0
  · subst h; decide
  · rw [pyStrOfNat, if_neg h, digitsFuel_eq_digits n n le_rfl]
    have hd : ∀ d ∈ Nat.digits 10 n, d < 10 :=
      fun d hdd => Nat.digits_lt_base (by norm_num) hdd
    have hne : Nat.digits 10 n ≠ [] := Nat.digits_ne_nil_iff_ne_zero.mpr h
    rw [digitsVal, if_pos ?cond]
    case cond =>
      refine ⟨by simp [hne], ?_⟩
      rw [List.all_eq_true]
      intro c hc
      rw [List.mem_reverse] at hc
      obtain ⟨d, hdm, rfl⟩ := List.mem_map.mp hc
      rw [charDigit_digitChar d (hd d hdm)]
      rfl
    rw [foldl_digits_val (Nat.digits 10 n) hd 0]
    simp [Nat.ofDigits_digits]

theorem pyStrOfNat_ne_nil (n : Nat) : pyStrOfNat n ≠ [] := by
  intro hh
  have := digitsVal_pyStrOfNat n
  rw [hh] at this
  simp [digitsVal] at this

theorem pyStrOfNat_all_digits (n : Nat) :
    ∀ c ∈ pyStrOfNat n, (charDigit c).isSome = true := by
  have h := digitsVal_pyStrOfNat n
  rw [digitsVal] at h
  by_cases hc : pyStrOfNat n ≠ [] ∧
      ((pyStrOfNat n).all fun c => (charDigit c).isSome) = true
  · intro c hcm
    exact List.all_eq_true.mp hc.2 c hcm
  · rw [if_neg ?hneg] at h
    · exact absurd h (by simp)
    · intro hcontra
      exact hc ⟨hcontra.1, hcontra.2⟩

theorem pyInt_pyStrOfInt (i : Int) : pyInt (pyStrOfInt i) = some i := by
  cases i with
  | ofNat n =>
    show pyInt (pyStrOfNat n) = some (Int.ofNat n)
    obtain ⟨c, rest, hcr⟩ : ∃ c rest, pyStrOfNat n = c :: rest := by
      cases hh : pyStrOfNat n with
      | nil => exact absurd hh (pyStrOfNat_ne_nil n)
      | cons c rest => exact ⟨c, rest, rfl⟩
    have hcdig : (charDigit c).isSome = true := by
      apply pyStrOfNat_all_digits n
      rw [hcr]
      exact List.mem_cons_self c rest
    have hcm : c ≠ '-' := by
      intro hce; rw [hce] at hcdig; exact absurd hcdig (by decide)
    have hcp : c ≠ '+' := by
      intro hce; rw [hce] at hcdig; exact absurd hcdig (by decide)
    rw [hcr, pyInt, if_neg hcm, if_neg hcp, ← hcr, digitsVal_pyStrOfNat]
    rfl
  | negSucc n =>
    show pyInt ('-' :: pyStrOfNat (n + 1)) = some (Int.negSucc n)
    rw [pyInt, if_pos rfl, digitsVal_pyStrOfNat]
    rfl

/-! ### Escape / entity-decoding round-trip -/

theorem unescape_amp (l : List Char) :
    expat_unescape ('&' :: 'a' :: 'm' :: 'p' :: ';' :: l) = '&' :: expat_unescape l := rfl

theorem unescape_lt_entity (l : List Char) :
    expat_unescape ('&' :: 'l' :: 't' :: ';' :: l) = '<' :: expat_unescape l := rfl

theorem unescape_gt_entity (l : List Char) :
    expat_unescape ('&' :: 'g' :: 't' :: ';' :: l) = '>' :: expat_unescape l := rfl

theorem unescape_cons_other (c : Char) (h : c ≠ '&') (l : List Char) :
    expat_unescape (c :: l) = c :: expat_unescape l := by
  rw [expat_unescape.eq_def]
  split <;> simp_all

theorem unescape_escape (cs : List Char) : expat_unescape (sax_escape cs) = cs := by
  induction cs with
  | nil => rfl
  | cons c rest ih =>
    have hesc : sax_escape (c :: rest) = escapeChar c ++ sax_escape rest := by
      simp [sax_escape]
    rw [hesc]
    by_cases h1 : c = '&'
    · subst h1
      rw [show escapeChar '&' ++ sax_escape rest =
        '&' :: 'a' :: 'm' :: 'p' :: ';' :: sax_escape rest from rfl, unescape_amp, ih]
    · by_cases h2 : c = '<'
      · subst h2
        rw [show escapeChar '<' ++ sax_escape rest =
          '&' :: 'l' :: 't' :: ';' :: sax_escape rest from rfl, unescape_lt_entity, ih]
      · by_cases h3 : c = '>'
        · subst h3
          rw [show escapeChar '>' ++ sax_escape rest =
            '&' :: 'g' :: 't' :: ';' :: sax_escape rest from rfl, unescape_gt_entity, ih]
        · rw [show escapeChar c ++ sax_escape rest = c :: sax_escape rest by
            simp [escapeChar, h1, h2, h3], unescape_cons_other c h1, ih]

theorem unescape_no_amp (cs : List Char) (h : '&' ∉ cs) : expat_unescape cs = cs := by
  induction cs with
  | nil => rfl
  | cons c rest ih =>
    have hc : c ≠ '&' := by
      intro he; rw [he] at h; exact h (List.mem_cons_self _ _)
    rw [unescape_cons_other c hc, ih (fun hm => h (List.mem_cons_of_mem c hm))]

theorem amp_not_mem_pyStrOfNat (n : Nat) : '&' ∉ pyStrOfNat n := by
  intro hm
  have := pyStrOfNat_all_digits n '&' hm
  exact absurd this (by decide)

theorem amp_not_mem_pyStrOfInt (i : Int) : '&' ∉ pyStrOfInt i := by
  cases i with
  | ofNat n => exact amp_not_mem_pyStrOfNat n
  | negSucc n =>
    intro hm
    rcases List.mem_cons.mp hm with h | h
    · exact absurd h (by decide)
    · exact amp_not_mem_pyStrOfNat (n + 1) h

/-! ### Schema writer/reader round-trip -/

theorem attr_write_typed_eq (ty : AttrType) (v : PyVal) (h : typeMatches ty v = true) :
    attr_write ty v = some (attr_write_typed v) := by
  cases ty <;> cases v <;> simp_all [typeMatches, attr_write, attr_write_typed]

theorem attr_read_write_typed (ty : AttrType) (v : PyVal) (h : typeMatches ty v = true) :
    attr_read ty (attr_write_typed v) = some v := by
  cases ty with
  | text =>
    cases v with
    | pystr s =>
      obtain ⟨d⟩ := s
      rfl
    | pynone => simp [typeMatches] at h
    | pyint i => simp [typeMatches] at h
    | pybool b => simp [typeMatches] at h
  | int =>
    cases v with
    | pyint i => simp [attr_read, attr_write_typed, pyInt_pyStrOfInt]
    | pynone => simp [typeMatches] at h
    | pystr s => simp [typeMatches] at h
    | pybool b => simp [typeMatches] at h
  | bool =>
    cases v with
    | pybool b => cases b <;> decide
    | pynone => simp [typeMatches] at h
    | pystr s => simp [typeMatches] at h
    | pyint i => simp [typeMatches] at h

theorem wellTyped_components (kv : String × PyVal) (h : wellTypedAttr kv = true) :
    ∃ ty, notebook_attrs kv.1 = some ty ∧ typeMatches ty kv.2 = true := by
  simp only [wellTypedAttr] at h
  cases hk : notebook_attrs kv.1 with
  | none => rw [hk] at h; simp at h
  | some ty => rw [hk] at h; exact ⟨ty, rfl, h⟩

theorem wellTyped_ne_pynone (kv : String × PyVal) (h : wellTypedAttr kv = true) :
    kv.2 ≠ .pynone := by
  obtain ⟨ty, _, hv⟩ := wellTyped_components kv h
  intro he
  rw [he] at hv
  cases ty <;> simp [typeMatches] at hv

/-! ### Writer output for well-typed attribute dicts -/

theorem write_one_attr_typed (kv : String × PyVal) (h : wellTypedAttr kv = true) :
    write_one_attr kv.1 kv.2 = some [attr_elem kv.1 kv.2] := by
  obtain ⟨ty, hk, hv⟩ := wellTyped_components kv h
  have h1 : write_one_attr kv.1 kv.2 =
      Option.map (fun cs => [WElem.mk "attr" [("key", kv.1)] (sax_escape cs)])
        (attr_write ty kv.2) := by
    rw [write_one_attr.eq_def, hk]
  rw [h1, attr_write_typed_eq ty kv.2 hv]
  rfl

theorem mapM_write_typed (attrs : List (String × PyVal))
    (h : ∀ kv ∈ attrs, wellTypedAttr kv = true) :
    attrs.mapM (fun kv => write_one_attr kv.1 kv.2) =
      some (attrs.map (fun kv => [attr_elem kv.1 kv.2])) := by
  induction attrs with
  | nil => rfl
  | cons kv t ih =>
    rw [List.mapM_cons, write_one_attr_typed kv (h kv (List.mem_cons_self kv t)),
      ih (fun kv2 hm => h kv2 (List.mem_cons_of_mem kv hm))]
    rfl

theorem flatten_singletons (attrs : List (String × PyVal))
    (f : String × PyVal → WElem) :
    (attrs.map (fun kv => [f kv])).flatten = attrs.map f := by
  induction attrs with
  | nil => rfl
  | cons kv t ih => simp [ih]

theorem meta_write_typed (version : Int) (attrs : List (String × PyVal))
    (h : ∀ kv ∈ attrs, wellTypedAttr kv = true) :
    meta_write version attrs =
      some ({ tag := "version", tagAttrs := [], text := pyStrOfInt version } ::
        attrs.map (fun kv => attr_elem kv.1 kv.2)) := by
  rw [meta_write, mapM_write_typed attrs h]
  rw [show Option.map (fun parts : List (List WElem) =>
      ({ tag := "version", tagAttrs := [], text := pyStrOfInt version } : WElem) :: parts.flatten)
      (some (attrs.map (fun kv => [attr_elem kv.1 kv.2]))) =
    some ({ tag := "version", tagAttrs := [], text := pyStrOfInt version } ::
      (attrs.map (fun kv => [attr_elem kv.1 kv.2])).flatten) from rfl]
  rw [flatten_singletons attrs (fun kv => attr_elem kv.1 kv.2)]

/-! ### Running the reader over the written document -/

theorem except_bind_ok {β : Type} (x : MetaParseSt) (f : MetaParseSt → Except Unit β) :
    (Except.ok x).bind f = f x := rfl

theorem meta_read_events_append (l1 l2 : List XEvent) (st : MetaParseSt) :
    meta_read_events (l1 ++ l2) st =
      (meta_read_events l1 st).bind (fun st2 => meta_read_events l2 st2) := by
  rw [meta_read_events, List.foldlM_append]
  rfl

theorem run_start_node :
    meta_read_events [.startE "node" [], .chars ['\n']] init_parse_state =
      .ok (ready_state init_parse_state.attr) := rfl

theorem run_version_elem (version : Int) (m : String → Option PyVal) :
    meta_read_events
      (elem_events { tag := "version", tagAttrs := [], text := pyStrOfInt version })
      (ready_state m) = .ok (ready_state (fset m "version" (.pyint version))) := by
  have hun : expat_unescape (pyStrOfInt version) = pyStrOfInt version :=
    unescape_no_amp _ (amp_not_mem_pyStrOfInt version)
  show meta_read_events
      [.startE "version" [], .chars (expat_unescape (pyStrOfInt version)),
        .endE "version", .chars ['\n']] (ready_state m) = _
  rw [hun]
  rw [show meta_read_events
      [XEvent.startE "version" [], XEvent.chars (pyStrOfInt version),
        XEvent.endE "version", XEvent.chars ['\n']] (ready_state m) =
    (meta_end_element
      { meta_root := true, meta_tag := some "version", meta_attr := [],
        meta_data := some (pyStrOfInt version), attr := m } "version").bind
      (fun st2 => meta_read_events [XEvent.chars ['\n']] st2) from rfl]
  rw [show meta_end_element
      { meta_root := true, meta_tag := some "version", meta_attr := [],
        meta_data := some (pyStrOfInt version), attr := m } "version" =
    (match pyInt (pyStrOfInt version) with
     | some v => Except.ok (clear_tag_state
         { meta_root := true, meta_tag := some "version", meta_attr := [],
           meta_data := some (pyStrOfInt version), attr := fset m "version" (.pyint v) })
     | none => Except.error ()) from rfl]
  rw [pyInt_pyStrOfInt]
  rfl

theorem run_attr_elem (k : String) (v : PyVal) (m : String → Option PyVal)
    (ty : AttrType) (hk : notebook_attrs k = some ty) (hv : typeMatches ty v = true) :
    meta_read_events (elem_events (attr_elem k v)) (ready_state m) =
      .ok (ready_state (fset m k v)) := by
  have hun : expat_unescape (sax_escape (attr_write_typed v)) = attr_write_typed v :=
    unescape_escape _
  show meta_read_events
      [.startE "attr" [("key", k)],
        .chars (expat_unescape (sax_escape (attr_write_typed v))),
        .endE "attr", .chars ['\n']] (ready_state m) = _
  rw [hun]
  rw [show meta_read_events
      [XEvent.startE "attr" [("key", k)], XEvent.chars (attr_write_typed v),
        XEvent.endE "attr", XEvent.chars ['\n']] (ready_state m) =
    (meta_end_element
      { meta_root := true, meta_tag := some "attr", meta_attr := [("key", k)],
        meta_data := some (attr_write_typed v), attr := m } "attr").bind
      (fun st2 => meta_read_events [XEvent.chars ['\n']] st2) from rfl]
  rw [show meta_end_element
      { meta_root := true, meta_tag := some "attr", meta_attr := [("key", k)],
        meta_data := some (attr_write_typed v), attr := m } "attr" =
    (match notebook_attrs k with
     | some ty2 =>
       (match attr_read ty2 (attr_write_typed v) with
        | some v2 => Except.ok (clear_tag_state
            { meta_root := true, meta_tag := some "attr", meta_attr := [("key", k)],
              meta_data := some (attr_write_typed v), attr := fset m k v2 })
        | none => Except.error ())
     | none => Except.ok (clear_tag_state
         { meta_root := true, meta_tag := some "attr", meta_attr := [("key", k)],
           meta_data := some (attr_write_typed v),
           attr := fset m k (.pystr (String.mk (attr_write_typed v))) })) from rfl]
  rw [hk]
  show (match attr_read ty (attr_write_typed v) with
     | some v2 => Except.ok (clear_tag_state
         { meta_root := true, meta_tag := some "attr", meta_attr := [("key", k)],
           meta_data := some (attr_write_typed v), attr := fset m k v2 })
     | none => Except.error ()).bind
      (fun st2 => meta_read_events [XEvent.chars ['\n']] st2) = _
  rw [attr_read_write_typed ty v hv]
  rfl

theorem run_attr_elems (attrs : List (String × PyVal))
    (h : ∀ kv ∈ attrs, wellTypedAttr kv = true) :
    ∀ m, meta_read_events
        ((List.map elem_events (attrs.map (fun kv => attr_elem kv.1 kv.2))).flatten)
        (ready_state m) =
      .ok (ready_state (attrs.foldl (fun m2 kv => fset m2 kv.1 kv.2) m)) := by
  induction attrs with
  | nil => intro m; rfl
  | cons kv t ih =>
    intro m
    rw [List.map_cons, List.map_cons, List.flatten_cons, meta_read_events_append]
    obtain ⟨ty, hk, hv⟩ := wellTyped_components kv (h kv (List.mem_cons_self kv t))
    rw [run_attr_elem kv.1 kv.2 m ty hk hv]
    simp only [except_bind_ok]
    rw [ih (fun kv2 hm => h kv2 (List.mem_cons_of_mem kv hm)) (fset m kv.1 kv.2)]
    rfl

theorem run_end_node (m : String → Option PyVal) :
    meta_read_events [.endE "node"] (ready_state m) =
      .ok { ready_state m with meta_root := false } := rfl

/-! ### Functional-map lookup lemmas -/

theorem foldl_fset_not_mem (attrs : List (String × PyVal)) (k : String) :
    k ∉ attrs.map Prod.fst →
    ∀ m, (attrs.foldl (fun m2 kv => fset m2 kv.1 kv.2) m) k = m k := by
  induction attrs with
  | nil => intro _ m; rfl
  | cons kv t ih =>
    intro h m
    simp only [List.map_cons, List.mem_cons, not_or] at h
    rw [List.foldl_cons, ih h.2]
    simp [fset, h.1]

theorem foldl_fset_lookup (attrs : List (String × PyVal))
    (hnodup : (attrs.map Prod.fst).Nodup) (kv : String × PyVal) (hm : kv ∈ attrs) :
    ∀ m, (attrs.foldl (fun m2 kv => fset m2 kv.1 kv.2) m) kv.1 = some kv.2 := by
  induction attrs with
  | nil => exact absurd hm (List.not_mem_nil kv)
  | cons kv0 t ih =>
    intro m
    simp only [List.map_cons, List.nodup_cons] at hnodup
    rcases List.mem_cons.mp hm with he | he
    · subst he
      rw [List.foldl_cons, foldl_fset_not_mem t kv.1 hnodup.1]
      simp [fset]
    · rw [List.foldl_cons]
      exact ih hnodup.2 he _

theorem cond_fset_lookup (M : String → Option PyVal) (now : Int) (dk k : String)
    (v : PyVal) (hM : M k = some v) (hv : v ≠ .pynone) :
    (if M dk = some .pynone then fset M dk (.pyint now) else M) k = some v := by
  by_cases hc : M dk = some .pynone
  · rw [if_pos hc]
    have hne : k ≠ dk := by
      intro he
      rw [he] at hM
      rw [hM] at hc
      exact hv (Option.some.inj hc)
    simp only [fset, if_neg hne]
    exact hM
  · rw [if_neg hc]; exact hM

/-- **C8**: for a node whose attributes all carry registered keys with
values of the registered datatypes, encoding with the metadata writer and
decoding the resulting document (via expat's entity decoding) with the
metadata reader succeeds and yields the original value for every attribute
in the set: booleans travel as `0`/`1`, integers and text as their text
form, markup characters through escape/entity round-trip. -/
theorem C8_metadata_roundtrip (version now : Int) (attrs : List (String × PyVal))
    (htyped : ∀ kv ∈ attrs, wellTypedAttr kv = true)
    (hnodup : (attrs.map Prod.fst).Nodup) :
    ∃ elems, meta_write version attrs = some elems ∧
      ∃ m, meta_read now (doc_events elems) = .ok m ∧
        ∀ kv ∈ attrs, m kv.1 = some kv.2 := by
  refine ⟨_, meta_write_typed version attrs htyped, ?_⟩
  have hrun : meta_read_events
      (doc_events ({ tag := "version", tagAttrs := [], text := pyStrOfInt version } ::
        attrs.map (fun kv => attr_elem kv.1 kv.2))) init_parse_state =
      .ok { ready_state (attrs.foldl (fun m2 kv => fset m2 kv.1 kv.2)
          (fset init_parse_state.attr "version" (.pyint version)))
        with meta_root := false } := by
    rw [doc_events, List.map_cons, List.flatten_cons, List.append_assoc,
      List.append_assoc]
    rw [meta_read_events_append, run_start_node]
    simp only [except_bind_ok]
    rw [meta_read_events_append, run_version_elem version init_parse_state.attr]
    simp only [except_bind_ok]
    rw [meta_read_events_append, run_attr_elems attrs htyped]
    simp only [except_bind_ok]
    exact run_end_node _
  rw [meta_read, hrun]
  refine ⟨_, rfl, ?_⟩
  intro kv hm
  have hM : (attrs.foldl (fun m2 kv => fset m2 kv.1 kv.2)
      (fset init_parse_state.attr "version" (.pyint version))) kv.1 = some kv.2 :=
    foldl_fset_lookup attrs hnodup kv hm _
  have hv : kv.2 ≠ .pynone := wellTyped_ne_pynone kv (htyped kv hm)
  exact cond_fset_lookup _ now "modified_time" kv.1 kv.2
    (cond_fset_lookup _ now "created_time" kv.1 kv.2 hM hv) hv

theorem C8_metadata_roundtrip_witness :
    ((∀ kv ∈ ([("title", PyVal.pystr "a<b&c>d"), ("order", PyVal.pyint (-3)),
        ("expanded", PyVal.pybool true), ("created_time", PyVal.pyint 123)] :
        List (String × PyVal)), wellTypedAttr kv = true) ∧
      (([("title", PyVal.pystr "a<b&c>d"), ("order", PyVal.pyint (-3)),
        ("expanded", PyVal.pybool true), ("created_time", PyVal.pyint 123)] :
        List (String × PyVal)).map Prod.fst).Nodup) ∧
    ∃ elems, meta_write 2 [("title", PyVal.pystr "a<b&c>d"), ("order", PyVal.pyint (-3)),
        ("expanded", PyVal.pybool true), ("created_time", PyVal.pyint 123)] = some elems ∧
      ∃ m, meta_read 999 (doc_events elems) = .ok m ∧
        ∀ kv ∈ ([("title", PyVal.pystr "a<b&c>d"), ("order", PyVal.pyint (-3)),
          ("expanded", PyVal.pybool true), ("created_time", PyVal.pyint 123)] :
          List (String × PyVal)), m kv.1 = some kv.2 :=
  ⟨⟨by decide, by decide⟩,
   C8_metadata_roundtrip 2 999
     [("title", PyVal.pystr "a<b&c>d"), ("order", PyVal.pyint (-3)),
      ("expanded", PyVal.pybool true), ("created_time", PyVal.pyint 123)]
     (by decide) (by decide)⟩

theorem C10_save_empties_dirty_witness :
    1 ∈ (notebook_save (fun n => decide (n ≠ 2)) 0 {0, 1, 2} [1, 2]).2.1 ∧
    ((1 = 0) ∨ decide ((1 : Nat) ≠ 2) = true) :=
  ⟨by decide,
   (C10_save_empties_dirty (fun n => decide (n ≠ 2)) 0 {0, 1, 2} [1, 2]).2.2 1 (by decide)⟩

end KeepNote
